import Mathlib

/-!
Shallow embedding of the SillyTavern-WorldInfoLocks extension
(source: `src/unnamed/part_000`).  The host application's mutable state
(extension settings, chat metadata, the live world-info book selection and
the resolved chat context) is threaded explicitly through each operation;
book-repository effects are represented by the list of load/unload
requests an operation emits, in emission order.
-/

namespace STWIL

/-! ### JavaScript value helpers

The source manipulates nullable strings with JS truthiness (`''`,
`null` and `undefined` are falsy).  `Option String` models
`string | null | undefined`; the helpers below mirror `!`, `||` and
`x || null` on such values. -/

/-- JS truthiness of a nullable string: `null`/`undefined`/`''` are falsy. -/
def jsTruthy : Option String → Bool
  | some s => !(s == "")
  | none => false

/-- JS `v || null` on a nullable string: collapses `''` to `null`. -/
def jsOrNull : Option String → Option String
  | some s => if s = "" then none else some s
  | none => none

/-- JS `a || b` on nullable strings: `b` when `a` is falsy, else `a`. -/
def jsOr (a b : Option String) : Option String :=
  match a with
  | some s => if s = "" then b else some s
  | none => b

/-- Lookup in a JS plain-object used as a string map (`m[k]`),
modelled as an association list in key-insertion order. -/
def mapGet (m : List (String × String)) (k : String) : Option String :=
  (m.find? (fun kv => kv.1 == k)).map (fun kv => kv.2)

/-- JS property assignment `m[k] = v`: updates an existing key in place,
otherwise appends the new key. -/
def mapSet (m : List (String × String)) (k v : String) : List (String × String) :=
  if m.any (fun kv => kv.1 == k) then
    m.map (fun kv => if kv.1 == k then (kv.1, v) else kv)
  else
    m ++ [(k, v)]

/-- JS `delete m[k]`. -/
def mapDelete (m : List (String × String)) (k : String) : List (String × String) :=
  m.filter (fun kv => kv.1 != k)

/-- JS `s.toLowerCase()`: characterwise lowering (the names involved are
compared for case-insensitive equality).  Defined characterwise over the
underlying character list so that it is kernel-computable, unlike the
library `String.toLower` which is word-for-word the same map. -/
def jsToLowerCase (s : String) : String :=
  ⟨s.data.map Char.toLower⟩

/-- Iterating a JS `Set` built from a list (`[...new Set(l)]`):
first-occurrence deduplication, preserving insertion order. -/
def jsSetDedup (l : List String) : List String :=
  l.foldl (fun acc b => if acc.contains b then acc else acc ++ [b]) []

/-! ### Data model (`Settings`, `Preset`, context) -/

/-- One entry of the world-info settings snapshot captured by
`snapshotWorldInfoSettings` (a numeric or boolean knob). -/
inductive SettingValue
  | num (n : Int)
  | flag (b : Bool)
deriving DecidableEq, Repr

/-- A captured world-info settings object: JS object = assoc list of
knob name to value (`snapshotWorldInfoSettings` keeps 13 fixed keys;
`createPreset` may store a filtered subset). -/
abbrev WISnapshot := List (String × SettingValue)

/-- `class Preset` from the source. -/
structure Preset where
  name : String
  worldList : List String
  worldInfoSettings : Option WISnapshot
deriving DecidableEq, Repr

/-- `class Settings` from the source (the extension-settings singleton).
The two lock maps are JS objects, modelled as assoc lists. -/
structure Settings where
  presetName : String
  presetList : List Preset
  characterLocks : List (String × String)
  groupLocks : List (String × String)
  preferChatOverCharacterLocks : Bool
  enableCharacterLocks : Bool
  enableChatLocks : Bool
  enableGroupLocks : Bool
  showLockNotifications : Bool
  globalDefaultPreset : String
deriving DecidableEq, Repr

/-- The resolved chat context (`getCurrentContext()` result). -/
structure Context where
  characterName : Option String
  chatId : Option String
  isGroupChat : Bool
  groupId : Option String
deriving DecidableEq, Repr

/-- The host state an operation reads and writes: the settings singleton,
the chat-metadata lock field (`chat_metadata.worldInfoPresetLock`), the
live book selection (`world_info.globalSelect`) and the current context. -/
structure HostState where
  settings : Settings
  chatLock : Option String
  globalSelect : List String
  ctx : Context
deriving DecidableEq, Repr

/-! ### Lock store -/

/-- `getChatLock()`: `chat_metadata?.worldInfoPresetLock || null`. -/
def getChatLock (chatLock : Option String) : Option String :=
  jsOrNull chatLock

/-- `getCharacterLock(characterName)`: `null` for a falsy name, else
`settings.characterLocks[characterName] || null`. -/
def getCharacterLock (locks : List (String × String)) (characterName : Option String) :
    Option String :=
  if jsTruthy characterName then jsOrNull (mapGet locks (characterName.getD ""))
  else none

/-- `getGroupLock(groupId)`: `null` for a falsy id, else
`settings.groupLocks[groupId] || null`. -/
def getGroupLock (locks : List (String × String)) (groupId : Option String) :
    Option String :=
  if jsTruthy groupId then jsOrNull (mapGet locks (groupId.getD ""))
  else none

/-- `setChatLock(presetName)`: store a truthy name, delete otherwise. -/
def setChatLock (st : HostState) (presetName : Option String) : HostState :=
  if jsTruthy presetName then { st with chatLock := presetName }
  else { st with chatLock := none }

/-- `setCharacterLock(characterName, presetName)`: no-op for a falsy
character name; a truthy preset name is stored, a falsy one deletes the key. -/
def setCharacterLock (st : HostState) (characterName presetName : Option String) :
    HostState :=
  if jsTruthy characterName then
    let key := characterName.getD ""
    if jsTruthy presetName then
      { st with settings :=
          { st.settings with characterLocks := mapSet st.settings.characterLocks key (presetName.getD "") } }
    else
      { st with settings :=
          { st.settings with characterLocks := mapDelete st.settings.characterLocks key } }
  else st

/-- `setGroupLock(groupId, presetName)`: symmetric with the character lock. -/
def setGroupLock (st : HostState) (groupId presetName : Option String) : HostState :=
  if jsTruthy groupId then
    let key := groupId.getD ""
    if jsTruthy presetName then
      { st with settings :=
          { st.settings with groupLocks := mapSet st.settings.groupLocks key (presetName.getD "") } }
    else
      { st with settings :=
          { st.settings with groupLocks := mapDelete st.settings.groupLocks key } }
  else st

/-! ### Lock resolver -/

/-- `getLockForContext()` from the source: gate each category on its
enable flag, pick the group lock in a group chat and the character lock
otherwise, then combine with `||` according to
`preferChatOverCharacterLocks`. -/
def getLockForContext (st : HostState) : Option String :=
  let chatLock := if st.settings.enableChatLocks then getChatLock st.chatLock else none
  let contextLock :=
    if st.ctx.isGroupChat then
      if st.settings.enableGroupLocks then getGroupLock st.settings.groupLocks st.ctx.groupId
      else none
    else
      if st.settings.enableCharacterLocks then
        getCharacterLock st.settings.characterLocks st.ctx.characterName
      else none
  if st.settings.preferChatOverCharacterLocks then jsOr chatLock contextLock
  else jsOr contextLock chatLock

/-- `hasAnyLocks()` from the source. -/
def hasAnyLocks (st : HostState) : Bool :=
  let chatLock := if st.settings.enableChatLocks then getChatLock st.chatLock else none
  if st.ctx.isGroupChat then
    let groupLock :=
      if st.settings.enableGroupLocks then getGroupLock st.settings.groupLocks st.ctx.groupId
      else none
    (jsOr chatLock groupLock).isSome
  else
    let characterLock :=
      if st.settings.enableCharacterLocks then
        getCharacterLock st.settings.characterLocks st.ctx.characterName
      else none
    (jsOr chatLock characterLock).isSome

/-- The lock-resolution rule as the specification states it: a lock of a
disabled category counts as absent, the context lock is the group lock in
a group chat and the character lock otherwise, and the precedence flag
decides which non-null component wins. -/
def lockResolutionSpec (chatLock characterLock groupLock : Option String)
    (preferChat enableChat enableCharacter enableGroup isGroup : Bool) : Option String :=
  let c := if enableChat then chatLock else none
  let k :=
    if isGroup then (if enableGroup then groupLock else none)
    else (if enableCharacter then characterLock else none)
  if preferChat then (if c.isSome then c else k)
  else (if k.isSome then k else c)

/-! ### Activation engine -/

/-- A book-repository request emitted during activation:
`/world state=off silent=true book` or `/world silent=true book`. -/
inductive BookOp
  | unload (book : String)
  | load (book : String)
deriving DecidableEq, Repr

/-- Whether a request is an unload request. -/
def BookOp.isUnload : BookOp → Bool
  | .unload _ => true
  | .load _ => false

/-- Whether a request is a load request. -/
def BookOp.isLoad : BookOp → Bool
  | .unload _ => false
  | .load _ => true

/-- `preset?.worldList || []`. -/
def presetWorldList (preset : Option Preset) : List String :=
  (preset.map Preset.worldList).getD []

/-- `targetBooks = new Set(preset?.worldList || [])`, in iteration order. -/
def targetBooks (preset : Option Preset) : List String :=
  jsSetDedup (presetWorldList preset)

/-- `booksToUnload = [...currentlyActive].filter(book => !targetBooks.has(book))`. -/
def booksToUnload (globalSelect : List String) (preset : Option Preset) : List String :=
  (jsSetDedup globalSelect).filter (fun book => !(targetBooks preset).contains book)

/-- `booksToLoad = [...targetBooks].filter(book => !currentlyActive.has(book))`. -/
def booksToLoad (globalSelect : List String) (preset : Option Preset) : List String :=
  (targetBooks preset).filter (fun book => !(jsSetDedup globalSelect).contains book)

/-- `updateLocksForContext(presetName)` (the lock-conflict negotiator's
retarget step): each lock that is currently set is overwritten with the
new preset name (deleted when the new name is falsy). -/
def updateLocksForContext (st : HostState) (presetName : Option String) : HostState :=
  let st1 := if (getChatLock st.chatLock).isSome then setChatLock st presetName else st
  if st1.ctx.isGroupChat then
    if (getGroupLock st1.settings.groupLocks st1.ctx.groupId).isSome then
      setGroupLock st1 st1.ctx.groupId presetName
    else st1
  else
    if (getCharacterLock st1.settings.characterLocks st1.ctx.characterName).isSome then
      setCharacterLock st1 st1.ctx.characterName presetName
    else st1

/-- `activatePreset(preset, skipLockCheck)`.  `shouldUpdate` is the
user's answer to the retarget confirmation popup (only consulted when the
popup is actually shown).  Returns the new host state and the emitted
book-repository requests in order.  The delta is computed from
`world_info.globalSelect`, which the preceding conflict-check step never
touches, so it is read from the incoming state. -/
def activatePreset (st : HostState) (preset : Option Preset)
    (skipLockCheck : Bool) (shouldUpdate : Bool) : HostState × List BookOp :=
  let st1 :=
    if !skipLockCheck && hasAnyLocks st then
      match getLockForContext st with
      | some currentLock =>
        if preset.map Preset.name ≠ some currentLock then
          if shouldUpdate then updateLocksForContext st (preset.map Preset.name) else st
        else st
      | none => st
    else st
  let unloadList := booksToUnload st.globalSelect preset
  let loadList := booksToLoad st.globalSelect preset
  let ops := unloadList.map BookOp.unload ++ loadList.map BookOp.load
  let st2 :=
    { st1 with settings :=
        { st1.settings with presetName := (preset.map Preset.name).getD "" } }
  (st2, ops)

/-! ### Lock application (`checkAndApplyLocks`) and the slash command -/

/-- Observable outcome of one `checkAndApplyLocks` run. -/
inductive LockApplyOutcome
  | appliedLocked (name : String)
  | warnedMissing (name : String)
  | appliedDefault (name : String)
  | noAction
  | timedOut
deriving DecidableEq, Repr

/-- `checkAndApplyLocks()`: bounded retry loop (fuel = remaining
attempts, 10 in the source).  A resolved lock naming an existing preset
is activated; a dangling lock warns and returns only when
`showLockNotifications` is set, otherwise control falls through to the
context-readiness check and the global-default logic, exactly as in the
source. -/
def checkAndApplyLocks (st : HostState) (shouldUpdate : Bool) :
    Nat → HostState × List BookOp × LockApplyOutcome
  | 0 => (st, [], .timedOut)
  | fuel + 1 =>
    let fallThrough : HostState × List BookOp × LockApplyOutcome :=
      if st.ctx.characterName = none ∧ st.ctx.chatId = none then
        checkAndApplyLocks st shouldUpdate fuel
      else if st.settings.globalDefaultPreset ≠ "" then
        match st.settings.presetList.find? (fun p => p.name == st.settings.globalDefaultPreset) with
        | some defaultPreset =>
          let r := activatePreset st (some defaultPreset) false shouldUpdate
          (r.1, r.2, .appliedDefault st.settings.globalDefaultPreset)
        | none => (st, [], .noAction)
      else (st, [], .noAction)
    match getLockForContext st with
    | some lockedPreset =>
      match st.settings.presetList.find? (fun p => p.name == lockedPreset) with
      | some preset =>
        let r := activatePreset st (some preset) false shouldUpdate
        (r.1, r.2, .appliedLocked lockedPreset)
      | none =>
        if st.settings.showLockNotifications then (st, [], .warnedMissing lockedPreset)
        else fallThrough
    | none => fallThrough

/-- Observable outcome of `activatePresetByName`. -/
inductive ByNameOutcome
  | warnedNotFound (name : String)
  | activated (presetName : String)
deriving DecidableEq, Repr

/-- `activatePresetByName(name)`: case-insensitive lookup; warns and
returns when no preset matches, otherwise activates the match. -/
def activatePresetByName (st : HostState) (name : String) (shouldUpdate : Bool) :
    HostState × List BookOp × ByNameOutcome :=
  match st.settings.presetList.find? (fun p => jsToLowerCase p.name == jsToLowerCase name) with
  | none => (st, [], .warnedNotFound name)
  | some preset =>
    let r := activatePreset st (some preset) false shouldUpdate
    (r.1, r.2, .activated preset.name)

/-- The registered `wipreset` slash-command handler:
`(args, value) => activatePresetByName(value)`. -/
def wipresetCommand (st : HostState) (value : String) (shouldUpdate : Bool) :
    HostState × List BookOp × ByNameOutcome :=
  activatePresetByName st value shouldUpdate

/-! ### Preset lifecycle: rename, create, import -/

/-- Rename the first preset called `oldName` in the list (the
`settings.preset` getter resolves to the first name match, and the
handler mutates that object's `name` field in place). -/
def renameFirstPreset (l : List Preset) (oldName newName : String) : List Preset :=
  match l with
  | [] => []
  | p :: rest =>
    if p.name = oldName then { p with name := newName } :: rest
    else p :: renameFirstPreset rest oldName newName

/-- The `btnRename` click handler.  `nameInput` is the popup's answer
(`none` = cancelled).  Guard: a falsy or unchanged name returns without
doing anything; otherwise the chat lock, every character-lock and
group-lock entry and the global default equal to the old name are
retargeted, then the selected preset's `name` and `presetName` are set. -/
def renamePresetHandler (st : HostState) (nameInput : Option String) : HostState :=
  let oldName := st.settings.presetName
  match nameInput with
  | none => st
  | some name =>
    if name = "" ∨ name = oldName then st
    else
      let st1 := if getChatLock st.chatLock = some oldName then setChatLock st (some name) else st
      let characterLocks := st1.settings.characterLocks.map
        (fun kv => if kv.2 = oldName then (kv.1, name) else kv)
      let groupLocks := st1.settings.groupLocks.map
        (fun kv => if kv.2 = oldName then (kv.1, name) else kv)
      let globalDefaultPreset :=
        if st1.settings.globalDefaultPreset = oldName then name
        else st1.settings.globalDefaultPreset
      { st1 with settings :=
          { st1.settings with
              characterLocks := characterLocks
              groupLocks := groupLocks
              globalDefaultPreset := globalDefaultPreset
              presetList := renameFirstPreset st1.settings.presetList oldName name
              presetName := name } }

/-- `createPreset()`.  `nameInput` is the name-popup answer (`none` =
cancelled), `settingsChoice` the settings-selection dialog's result
(`none` = cancelled; otherwise the include toggle and the selected
setting keys), `currentSettings` the live snapshot.  No name-collision
check of any kind is performed: the new preset is simply appended. -/
def createPreset (st : HostState) (nameInput : Option String)
    (settingsChoice : Option (Bool × List String)) (currentSettings : WISnapshot) :
    HostState :=
  match nameInput with
  | none => st
  | some name =>
    if name = "" then st
    else
      match settingsChoice with
      | none => st
      | some (includeSettings, selectedSettings) =>
        let worldInfoSettings :=
          if includeSettings then
            some (currentSettings.filter (fun kv => selectedSettings.contains kv.1))
          else none
        let preset : Preset := ⟨name, st.globalSelect, worldInfoSettings⟩
        { st with settings :=
            { st.settings with
                presetList := st.settings.presetList ++ [preset]
                presetName := name } }

/-- Observable outcome of `importSinglePreset`. -/
inductive ImportOutcome
  | overwrote (name : String) (confirmed : Bool)
  | pushed (name : String)
  | outOfResponses
deriving DecidableEq, Repr

/-- Overwrite, in place, the first preset whose name matches `nm`
case-insensitively (`old.worldList = data.worldList;
old.worldInfoSettings = data.worldInfoSettings ?? null`). -/
def overwriteFirstPresetCI (l : List Preset) (nm : String) (wl : List String)
    (wis : Option WISnapshot) : List Preset :=
  match l with
  | [] => []
  | p :: rest =>
    if jsToLowerCase p.name = jsToLowerCase nm then
      { p with worldList := wl, worldInfoSettings := wis } :: rest
    else p :: overwriteFirstPresetCI rest nm wl wis

/-- The name-collision loop of `importSinglePreset`: while a preset with
the incoming name exists (case-insensitively), re-prompt; answering with
the same name offers an overwrite (confirmed or declined, both end the
import); answering with a different name restarts the lookup under that
name; once no preset matches, a new preset is pushed.  `renameResponses`
is the finite sequence of prompt answers available in this run. -/
def importSinglePreset (l : List Preset) (dataName : String) (dataWorldList : List String)
    (dataWIS : Option WISnapshot) (renameResponses : List String)
    (overwriteConfirm : Bool) : List Preset × ImportOutcome :=
  if (l.find? (fun p => jsToLowerCase p.name == jsToLowerCase dataName)).isSome then
    match renameResponses with
    | [] => (l, .outOfResponses)
    | response :: rest =>
      if response = dataName then
        if overwriteConfirm then
          (overwriteFirstPresetCI l dataName dataWorldList dataWIS, .overwrote dataName true)
        else (l, .overwrote dataName false)
      else importSinglePreset l response dataWorldList dataWIS rest overwriteConfirm
  else (l ++ [⟨dataName, dataWorldList, dataWIS⟩], .pushed dataName)

/-- Case-insensitive name uniqueness of the registry: no two presets
share a name up to lowercasing. -/
def ciUniqueNames : List Preset → Bool
  | [] => true
  | p :: rest =>
    !(rest.any (fun q => jsToLowerCase q.name == jsToLowerCase p.name)) && ciUniqueNames rest

/-! ### Book-rename reconciler -/

/-- Names present in the new list but not in the old one. -/
def diffAdded (bookNames newNames : List String) : List String :=
  newNames.filter (fun nn => !bookNames.contains nn)

/-- Names present in the old list but not in the new one. -/
def diffRemoved (bookNames newNames : List String) : List String :=
  bookNames.filter (fun bn => !newNames.contains bn)

/-- The rename-detection step of the mutation observer: propose
`(oldName, newName, affected presets)` exactly when the diff is one
removal plus one addition and at least one preset's `worldList` contains
the removed name. -/
def detectRename (presetList : List Preset) (bookNames newNames : List String) :
    Option (String × String × List Preset) :=
  let added := diffAdded bookNames newNames
  let removed := diffRemoved bookNames newNames
  if added.length = 1 ∧ removed.length = 1 then
    let oldName := removed.headI
    let newName := added.headI
    let presets := presetList.filter (fun p => p.worldList.contains oldName)
    if presets.length > 0 then some (oldName, newName, presets) else none
  else none

/-- `worldList.splice(worldList.indexOf(oldName), 1, newName)`: replace
the element at the index of the first occurrence of `oldName`.  The
caller filters on `worldList.includes(oldName)` first, so `indexOf`
always finds the name and the splice replaces exactly that first
occurrence, which this recursion mirrors. -/
def spliceReplaceFirst (l : List String) (oldName newName : String) : List String :=
  match l with
  | [] => []
  | b :: rest =>
    if b = oldName then newName :: rest
    else b :: spliceReplaceFirst rest oldName newName

/-- The confirmed rewrite: every preset whose `worldList` contains the
old name gets the first occurrence replaced in place; the others are
untouched. -/
def applyRenameToPresets (presetList : List Preset) (oldName newName : String) :
    List Preset :=
  presetList.map (fun p =>
    if p.worldList.contains oldName then
      { p with worldList := spliceReplaceFirst p.worldList oldName newName }
    else p)

/-! ### Startup migration -/

/-- `migratePresetsToIncludeSettings()` (run from `init`): every preset
with a falsy `worldInfoSettings` receives the current global snapshot. -/
def migratePresetsToIncludeSettings (currentSettings : WISnapshot) (l : List Preset) :
    List Preset :=
  l.map (fun p =>
    if p.worldInfoSettings.isNone then { p with worldInfoSettings := some currentSettings }
    else p)

/-! ### Helper lemmas -/

theorem jsOrNull_ne_some_empty (v : Option String) : jsOrNull v ≠ some "" := by
  cases v with
  | none => simp [jsOrNull]
  | some s => by_cases h : s = "" <;> simp [jsOrNull, h]

theorem jsOr_eq_ite (a b : Option String) (h : a ≠ some "") :
    jsOr a b = if a.isSome then a else b := by
  cases a with
  | none => simp [jsOr]
  | some s =>
    have hs : s ≠ "" := fun e => h (by rw [e])
    simp [jsOr, hs]

theorem getChatLock_ne_some_empty (v : Option String) : getChatLock v ≠ some "" :=
  jsOrNull_ne_some_empty v

theorem getCharacterLock_ne_some_empty (locks : List (String × String))
    (characterName : Option String) : getCharacterLock locks characterName ≠ some "" := by
  unfold getCharacterLock
  split
  · exact jsOrNull_ne_some_empty _
  · simp

theorem getGroupLock_ne_some_empty (locks : List (String × String))
    (groupId : Option String) : getGroupLock locks groupId ≠ some "" := by
  unfold getGroupLock
  split
  · exact jsOrNull_ne_some_empty _
  · simp

theorem mem_foldl_jsSetDedup (l : List String) :
    ∀ (acc : List String) (a : String),
      a ∈ l.foldl (fun acc b => if acc.contains b then acc else acc ++ [b]) acc ↔
        a ∈ acc ∨ a ∈ l := by
  induction l with
  | nil => intro acc a; simp
  | cons b t ih =>
    intro acc a
    simp only [List.foldl_cons]
    by_cases h : acc.contains b
    · rw [if_pos h, ih]
      have hb : b ∈ acc := by simpa [List.contains] using h
      constructor
      · rintro (ha | ha)
        · exact Or.inl ha
        · exact Or.inr (List.mem_cons_of_mem _ ha)
      · rintro (ha | ha)
        · exact Or.inl ha
        · rcases List.mem_cons.mp ha with rfl | ha
          · exact Or.inl hb
          · exact Or.inr ha
    · rw [if_neg h, ih]
      simp only [List.mem_append, List.mem_cons, List.mem_singleton]
      tauto

theorem mem_jsSetDedup (l : List String) (a : String) : a ∈ jsSetDedup l ↔ a ∈ l := by
  unfold jsSetDedup
  rw [mem_foldl_jsSetDedup]
  simp

theorem mem_booksToUnload (globalSelect : List String) (preset : Option Preset)
    (b : String) :
    b ∈ booksToUnload globalSelect preset ↔
      b ∈ globalSelect ∧ b ∉ presetWorldList preset := by
  unfold booksToUnload
  rw [List.mem_filter, mem_jsSetDedup]
  constructor
  · rintro ⟨h1, h2⟩
    refine ⟨h1, fun hb => ?_⟩
    have : b ∈ targetBooks preset := (mem_jsSetDedup _ _).mpr hb
    simp [List.contains] at h2
    exact h2 this
  · rintro ⟨h1, h2⟩
    refine ⟨h1, ?_⟩
    have : b ∉ targetBooks preset := fun hb => h2 ((mem_jsSetDedup _ _).mp hb)
    simpa [List.contains] using this

theorem mem_booksToLoad (globalSelect : List String) (preset : Option Preset)
    (b : String) :
    b ∈ booksToLoad globalSelect preset ↔
      b ∈ presetWorldList preset ∧ b ∉ globalSelect := by
  unfold booksToLoad targetBooks
  rw [List.mem_filter, mem_jsSetDedup]
  constructor
  · rintro ⟨h1, h2⟩
    refine ⟨h1, fun hb => ?_⟩
    have : b ∈ jsSetDedup globalSelect := (mem_jsSetDedup _ _).mpr hb
    simp [List.contains] at h2
    exact h2 this
  · rintro ⟨h1, h2⟩
    refine ⟨h1, ?_⟩
    have : b ∉ jsSetDedup globalSelect := fun hb => h2 ((mem_jsSetDedup _ _).mp hb)
    simpa [List.contains] using this

/-! ### Claim C1 -/

/-- The scenario state of claim C1: chat lock "Combat", character lock
"Explore" for the current (non-group) character, all categories enabled,
with the given precedence flag. -/
def precedenceScenario (preferChat : Bool) : HostState :=
  { settings :=
      { presetName := ""
        presetList := []
        characterLocks := [("Alice", "Explore")]
        groupLocks := []
        preferChatOverCharacterLocks := preferChat
        enableCharacterLocks := true
        enableChatLocks := true
        enableGroupLocks := true
        showLockNotifications := true
        globalDefaultPreset := "" }
    chatLock := some "Combat"
    globalSelect := []
    ctx :=
      { characterName := some "Alice"
        chatId := some "chat1"
        isGroupChat := false
        groupId := none } }

/-- Claim C1: for every combination of chat lock, character lock, group
lock, precedence flag, enable flags and group-chat indicator,
`getLockForContext` returns the chat lock if non-null else the context
lock when `preferChatOverCharacterLocks` is true, and the context lock if
non-null else the chat lock when it is false, where a disabled category
counts as absent and the context lock is the group lock (keyed by
`groupId`) in a group chat and the character lock otherwise; in
particular, with chat lock "Combat" and character lock "Explore", both
categories enabled, in a non-group chat, the flag false yields "Explore"
and the flag true yields "Combat". -/
theorem getLockForContext_precedence :
    (∀ st : HostState,
      getLockForContext st =
        lockResolutionSpec (getChatLock st.chatLock)
          (getCharacterLock st.settings.characterLocks st.ctx.characterName)
          (getGroupLock st.settings.groupLocks st.ctx.groupId)
          st.settings.preferChatOverCharacterLocks st.settings.enableChatLocks
          st.settings.enableCharacterLocks st.settings.enableGroupLocks
          st.ctx.isGroupChat) ∧
    getLockForContext (precedenceScenario false) = some "Explore" ∧
    getLockForContext (precedenceScenario true) = some "Combat" := by
  refine ⟨fun st => ?_, by decide, by decide⟩
  have hc : (if st.settings.enableChatLocks then getChatLock st.chatLock else none) ≠
      some "" := by
    split
    · exact getChatLock_ne_some_empty _
    · simp
  have hk :
      (if st.ctx.isGroupChat then
          if st.settings.enableGroupLocks then
            getGroupLock st.settings.groupLocks st.ctx.groupId
          else none
        else
          if st.settings.enableCharacterLocks then
            getCharacterLock st.settings.characterLocks st.ctx.characterName
          else none) ≠ some "" := by
    split
    · split
      · exact getGroupLock_ne_some_empty _ _
      · simp
    · split
      · exact getCharacterLock_ne_some_empty _ _
      · simp
  simp only [getLockForContext, lockResolutionSpec]
  split
  · exact jsOr_eq_ite _ _ hc
  · exact jsOr_eq_ite _ _ hk

/-! ### Claim C2 -/

/-- Claim C2: for every `activatePreset` call, with current = the live
book selection and target = the preset's book list (empty for a null
preset), the books unloaded are exactly current minus target and the
books loaded are exactly target minus current; activating null unloads
every currently active book and sets `presetName` to the empty string,
and re-activating a preset whose book list matches the live selection
yields an empty delta. -/
theorem activatePreset_delta (globalSelect : List String) (preset : Option Preset) :
    (∀ b, b ∈ booksToUnload globalSelect preset ↔
        b ∈ globalSelect ∧ b ∉ presetWorldList preset) ∧
    (∀ b, b ∈ booksToLoad globalSelect preset ↔
        b ∈ presetWorldList preset ∧ b ∉ globalSelect) ∧
    booksToUnload globalSelect none = jsSetDedup globalSelect ∧
    booksToLoad globalSelect none = [] ∧
    (∀ (st : HostState) (skipLockCheck shouldUpdate : Bool),
      (activatePreset st none skipLockCheck shouldUpdate).1.settings.presetName = "") ∧
    ((∀ b, b ∈ globalSelect ↔ b ∈ presetWorldList preset) →
      booksToUnload globalSelect preset = [] ∧ booksToLoad globalSelect preset = []) := by
  refine ⟨mem_booksToUnload globalSelect preset, mem_booksToLoad globalSelect preset,
    ?_, rfl, fun st sk c => rfl, fun hsame => ⟨?_, ?_⟩⟩
  · show (jsSetDedup globalSelect).filter
        (fun book => !(List.contains [] book)) = jsSetDedup globalSelect
    exact List.filter_eq_self.mpr (fun a _ => by simp)
  · refine List.filter_eq_nil_iff.mpr (fun a ha => ?_)
    have h1 : a ∈ globalSelect := (mem_jsSetDedup _ _).mp ha
    have h2 : a ∈ targetBooks preset := (mem_jsSetDedup _ _).mpr ((hsame a).mp h1)
    simp [List.contains, h2]
  · refine List.filter_eq_nil_iff.mpr (fun a ha => ?_)
    have h1 : a ∈ presetWorldList preset := (mem_jsSetDedup _ _).mp ha
    have h2 : a ∈ jsSetDedup globalSelect := (mem_jsSetDedup _ _).mpr ((hsame a).mpr h1)
    simp [List.contains, h2]

/-- Witness for C2: re-activating a preset matching the live selection
produces an empty delta. -/
theorem activatePreset_delta_witness :
    booksToUnload ["b2"] (some ⟨"B", ["b2"], none⟩) = [] ∧
    booksToLoad ["b2"] (some ⟨"B", ["b2"], none⟩) = [] :=
  (activatePreset_delta ["b2"] (some ⟨"B", ["b2"], none⟩)).2.2.2.2.2
    (fun _ => Iff.rfl)

/-! ### Claim C3 -/

theorem unload_load_index_order (A B : List String) (i j : Nat)
    (hi : i < (A.map BookOp.unload ++ B.map BookOp.load).length)
    (hj : j < (A.map BookOp.unload ++ B.map BookOp.load).length)
    (hload : ((A.map BookOp.unload ++ B.map BookOp.load)[i]).isLoad = true)
    (hunload : ((A.map BookOp.unload ++ B.map BookOp.load)[j]).isUnload = true) :
    j < i := by
  have hi2 : A.length ≤ i := by
    by_contra hlt
    push_neg at hlt
    have h1 : i < (A.map BookOp.unload).length := by simpa using hlt
    have e1 : (A.map BookOp.unload ++ B.map BookOp.load)[i]? =
        (A.map BookOp.unload)[i]? := List.getElem?_append_left h1
    rw [List.getElem?_eq_getElem hi, List.getElem?_eq_getElem h1] at e1
    have : (A.map BookOp.unload ++ B.map BookOp.load)[i] =
        (A.map BookOp.unload)[i] := by injection e1
    rw [this, List.getElem_map] at hload
    simp [BookOp.isLoad] at hload
  have hj2 : j < A.length := by
    by_contra hge
    push_neg at hge
    have hge2 : (A.map BookOp.unload).length ≤ j := by simpa using hge
    have hb : j - (A.map BookOp.unload).length < (B.map BookOp.load).length := by
      have := hj
      simp only [List.length_append, List.length_map] at this ⊢
      omega
    have e1 : (A.map BookOp.unload ++ B.map BookOp.load)[j]? =
        (B.map BookOp.load)[j - (A.map BookOp.unload).length]? :=
      List.getElem?_append_right hge2
    rw [List.getElem?_eq_getElem hj, List.getElem?_eq_getElem hb] at e1
    have : (A.map BookOp.unload ++ B.map BookOp.load)[j] =
        (B.map BookOp.load)[j - (A.map BookOp.unload).length] := by injection e1
    rw [this, List.getElem_map] at hunload
    simp [BookOp.isUnload] at hunload
  omega

/-- Claim C3: within one `activatePreset` call, every unload request is
emitted before any load request: whenever position `i` of the emitted
request list holds a load and position `j` holds an unload, `j < i`. -/
theorem activatePreset_unloads_precede_loads (st : HostState) (preset : Option Preset)
    (skipLockCheck shouldUpdate : Bool) (i j : Nat)
    (hi : i < (activatePreset st preset skipLockCheck shouldUpdate).2.length)
    (hj : j < (activatePreset st preset skipLockCheck shouldUpdate).2.length)
    (hload : (((activatePreset st preset skipLockCheck shouldUpdate).2)[i]).isLoad = true)
    (hunload : (((activatePreset st preset skipLockCheck shouldUpdate).2)[j]).isUnload = true) :
    j < i := by
  have hops : (activatePreset st preset skipLockCheck shouldUpdate).2 =
      (booksToUnload st.globalSelect preset).map BookOp.unload ++
        (booksToLoad st.globalSelect preset).map BookOp.load := rfl
  rw [hops] at hi hj
  refine unload_load_index_order _ _ i j hi hj ?_ ?_
  · rw [← List.getElem_of_eq hops hi]; exact hload
  · rw [← List.getElem_of_eq hops hj]; exact hunload

/-- A lock-free state with book "a" loaded, used to witness C3. -/
def orderWitnessState : HostState :=
  { settings :=
      { presetName := ""
        presetList := []
        characterLocks := []
        groupLocks := []
        preferChatOverCharacterLocks := false
        enableCharacterLocks := true
        enableChatLocks := true
        enableGroupLocks := true
        showLockNotifications := true
        globalDefaultPreset := "" }
    chatLock := none
    globalSelect := ["a"]
    ctx :=
      { characterName := some "X"
        chatId := some "c1"
        isGroupChat := false
        groupId := none } }

/-- Witness for C3: activating a preset with book "c" while "a" is
loaded emits the unload of "a" (position 0) before the load of "c"
(position 1). -/
theorem activatePreset_unloads_precede_loads_witness :
    (activatePreset orderWitnessState (some ⟨"P", ["c"], none⟩) false false).2 =
      [BookOp.unload "a", BookOp.load "c"] ∧ 0 < 1 :=
  ⟨rfl, activatePreset_unloads_precede_loads orderWitnessState (some ⟨"P", ["c"], none⟩)
    false false 1 0 (by decide) (by decide) (by decide) (by decide)⟩

/-! ### Claim C4 -/

/-- Claim C4: when `activatePreset` runs with the lock check enabled, a
lock is active, the resolved lock differs from the requested target, and
the user rejects the retarget confirmation, then the chat-, character-
and group-lock state is unchanged, the book delta is still emitted, and
`presetName` is set to the requested target — the conflict check never
blocks or redirects activation. -/
theorem activatePreset_rejected_conflict (st : HostState) (preset : Option Preset)
    (L : String)
    (hlocks : hasAnyLocks st = true)
    (hres : getLockForContext st = some L)
    (hdiff : preset.map Preset.name ≠ some L) :
    (activatePreset st preset false false).1.chatLock = st.chatLock ∧
    (activatePreset st preset false false).1.settings.characterLocks =
      st.settings.characterLocks ∧
    (activatePreset st preset false false).1.settings.groupLocks =
      st.settings.groupLocks ∧
    (activatePreset st preset false false).2 =
      (booksToUnload st.globalSelect preset).map BookOp.unload ++
        (booksToLoad st.globalSelect preset).map BookOp.load ∧
    (activatePreset st preset false false).1.settings.presetName =
      (preset.map Preset.name).getD "" := by
  have key : activatePreset st preset false false =
      ({ st with settings :=
          { st.settings with presetName := (preset.map Preset.name).getD "" } },
       (booksToUnload st.globalSelect preset).map BookOp.unload ++
         (booksToLoad st.globalSelect preset).map BookOp.load) := by
    simp only [activatePreset, hlocks, hres, Bool.not_false, Bool.true_and, if_true]
    rw [if_pos hdiff]
    simp
  rw [key]
  exact ⟨rfl, rfl, rfl, rfl, rfl⟩

/-- Witness for C4: in the C1 scenario state (resolved lock "Explore"),
activating a different preset "New" with the popup rejected leaves every
lock untouched and still sets `presetName` to "New". -/
theorem activatePreset_rejected_conflict_witness :
    hasAnyLocks (precedenceScenario false) = true ∧
    getLockForContext (precedenceScenario false) = some "Explore" ∧
    (activatePreset (precedenceScenario false) (some ⟨"New", ["n"], none⟩) false false).1.chatLock =
      (precedenceScenario false).chatLock ∧
    (activatePreset (precedenceScenario false) (some ⟨"New", ["n"], none⟩) false false).1.settings.presetName =
      "New" :=
  ⟨by decide, by decide,
    (activatePreset_rejected_conflict (precedenceScenario false) (some ⟨"New", ["n"], none⟩)
      "Explore" (by decide) (by decide) (by decide)).1,
    (activatePreset_rejected_conflict (precedenceScenario false) (some ⟨"New", ["n"], none⟩)
      "Explore" (by decide) (by decide) (by decide)).2.2.2.2⟩

/-! ### Claim C5 -/

theorem getChatLock_eq_some_iff (v : Option String) (A : String) (hA : A ≠ "") :
    getChatLock v = some A ↔ v = some A := by
  cases v with
  | none => simp [getChatLock, jsOrNull]
  | some s =>
    by_cases hs : s = ""
    · simp [getChatLock, jsOrNull, hs]
      exact fun e => hA e.symm
    · simp [getChatLock, jsOrNull, hs]

theorem mapGet_retarget (m : List (String × String)) (oldName newName k : String) :
    mapGet (m.map (fun kv => if kv.2 = oldName then (kv.1, newName) else kv)) k =
      (mapGet m k).map (fun v => if v = oldName then newName else v) := by
  induction m with
  | nil => rfl
  | cons kv t ih =>
    obtain ⟨a, v⟩ := kv
    by_cases hv : v = oldName <;> by_cases hk : a = k <;>
      simp [mapGet, List.find?_cons, hv, hk] <;> simpa [mapGet] using ih

theorem renameFirstPreset_mem (l : List Preset) (A B : String)
    (h : A ∈ l.map Preset.name) : B ∈ (renameFirstPreset l A B).map Preset.name := by
  induction l with
  | nil => simp at h
  | cons p t ih =>
    by_cases hp : p.name = A
    · simp [renameFirstPreset, hp]
    · have h2 : A ∈ t.map Preset.name := by
        simp only [List.map_cons, List.mem_cons] at h
        rcases h with h1 | h1
        · exact absurd h1.symm hp
        · exact h1
      rw [show renameFirstPreset (p :: t) A B = p :: renameFirstPreset t A B from by
        simp [renameFirstPreset, hp]]
      simp only [List.map_cons, List.mem_cons]
      exact Or.inr (ih h2)

/-- Claim C5: renaming the currently selected preset from A to B
retargets the chat lock (when it equals A), every character- and
group-lock entry equal to A and the global default equal to A to B,
leaves every other lock or default reference unchanged, sets
`presetName` to B, and renames the selected preset itself. -/
theorem renamePreset_cascades (st : HostState) (A B : String)
    (hsel : st.settings.presetName = A)
    (hA : A ≠ "") (hB : B ≠ "") (hBA : B ≠ A) :
    (renamePresetHandler st (some B)).chatLock =
      (if st.chatLock = some A then some B else st.chatLock) ∧
    (∀ k, mapGet (renamePresetHandler st (some B)).settings.characterLocks k =
      (mapGet st.settings.characterLocks k).map (fun v => if v = A then B else v)) ∧
    (∀ k, mapGet (renamePresetHandler st (some B)).settings.groupLocks k =
      (mapGet st.settings.groupLocks k).map (fun v => if v = A then B else v)) ∧
    (renamePresetHandler st (some B)).settings.globalDefaultPreset =
      (if st.settings.globalDefaultPreset = A then B
       else st.settings.globalDefaultPreset) ∧
    (renamePresetHandler st (some B)).settings.presetName = B ∧
    (renamePresetHandler st (some B)).settings.presetList =
      renameFirstPreset st.settings.presetList A B ∧
    (A ∈ st.settings.presetList.map Preset.name →
      B ∈ (renamePresetHandler st (some B)).settings.presetList.map Preset.name) := by
  have hguard : ¬(B = "" ∨ B = A) := by simp [hB, hBA]
  have hbody : renamePresetHandler st (some B) =
      (let st1 := if getChatLock st.chatLock = some A then setChatLock st (some B) else st
       { st1 with settings :=
          { st1.settings with
              characterLocks := st1.settings.characterLocks.map
                (fun kv => if kv.2 = A then (kv.1, B) else kv)
              groupLocks := st1.settings.groupLocks.map
                (fun kv => if kv.2 = A then (kv.1, B) else kv)
              globalDefaultPreset :=
                if st1.settings.globalDefaultPreset = A then B
                else st1.settings.globalDefaultPreset
              presetList := renameFirstPreset st1.settings.presetList A B
              presetName := B } }) := by
    simp only [renamePresetHandler, hsel]
    rw [if_neg hguard]
  have hsettings :
      (if getChatLock st.chatLock = some A then setChatLock st (some B) else st).settings =
        st.settings := by
    split
    · unfold setChatLock; split <;> rfl
    · rfl
  have hchat :
      (if getChatLock st.chatLock = some A then setChatLock st (some B) else st).chatLock =
        (if st.chatLock = some A then some B else st.chatLock) := by
    by_cases hcl : getChatLock st.chatLock = some A
    · rw [if_pos hcl, if_pos ((getChatLock_eq_some_iff _ _ hA).mp hcl)]
      simp [setChatLock, jsTruthy, hB]
    · rw [if_neg hcl, if_neg (fun e => hcl ((getChatLock_eq_some_iff _ _ hA).mpr e))]
  rw [hbody]
  simp only [hsettings, hchat]
  exact ⟨by trivial, fun k => mapGet_retarget _ _ _ _, fun k => mapGet_retarget _ _ _ _,
    by trivial, by trivial, by trivial, fun h => renameFirstPreset_mem _ _ _ h⟩

/-- A state with preset "A" selected, a chat lock on "A", character
locks on "A" and "X" and global default "A", used to witness C5. -/
def renameWitnessState : HostState :=
  { settings :=
      { presetName := "A"
        presetList := [⟨"A", ["b1"], none⟩]
        characterLocks := [("Alice", "A"), ("Bob", "X")]
        groupLocks := [("g1", "A")]
        preferChatOverCharacterLocks := false
        enableCharacterLocks := true
        enableChatLocks := true
        enableGroupLocks := true
        showLockNotifications := true
        globalDefaultPreset := "A" }
    chatLock := some "A"
    globalSelect := ["b1"]
    ctx :=
      { characterName := some "Alice"
        chatId := some "c1"
        isGroupChat := false
        groupId := none } }

/-- Witness for C5: renaming "A" to "B" in the concrete state updates
the chat lock and Alice's lock to "B", leaves Bob's lock "X" untouched,
and renames the preset. -/
theorem renamePreset_cascades_witness :
    (renamePresetHandler renameWitnessState (some "B")).chatLock =
      (if renameWitnessState.chatLock = some "A" then some "B"
       else renameWitnessState.chatLock) ∧
    mapGet (renamePresetHandler renameWitnessState (some "B")).settings.characterLocks "Bob" =
      (mapGet renameWitnessState.settings.characterLocks "Bob").map
        (fun v => if v = "A" then "B" else v) ∧
    (renamePresetHandler renameWitnessState (some "B")).settings.presetName = "B" :=
  ⟨(renamePreset_cascades renameWitnessState "A" "B" rfl (by decide) (by decide)
      (by decide)).1,
   (renamePreset_cascades renameWitnessState "A" "B" rfl (by decide) (by decide)
      (by decide)).2.1 "Bob",
   (renamePreset_cascades renameWitnessState "A" "B" rfl (by decide) (by decide)
      (by decide)).2.2.2.2.1⟩

/-! ### Claim C6 -/

/-- Case-insensitive uniqueness of a list of names. -/
def ciUniqueStrings : List String → Bool
  | [] => true
  | s :: rest =>
    !(rest.any (fun t => jsToLowerCase t == jsToLowerCase s)) && ciUniqueStrings rest

theorem list_any_map {α β : Type} (f : α → β) (l : List α) (p : β → Bool) :
    (l.map f).any p = l.any (fun a => p (f a)) := by
  induction l with
  | nil => rfl
  | cons a t ih => simp [List.any_cons, ih]

theorem ciUniqueNames_eq_strings (l : List Preset) :
    ciUniqueNames l = ciUniqueStrings (l.map Preset.name) := by
  induction l with
  | nil => rfl
  | cons p t ih =>
    show ((!(t.any fun q => jsToLowerCase q.name == jsToLowerCase p.name)) &&
        ciUniqueNames t) =
      ((!((t.map Preset.name).any fun s => jsToLowerCase s == jsToLowerCase p.name)) &&
        ciUniqueStrings (t.map Preset.name))
    rw [ih, list_any_map]

theorem overwriteFirstPresetCI_names (l : List Preset) (nm : String)
    (wl : List String) (wis : Option WISnapshot) :
    (overwriteFirstPresetCI l nm wl wis).map Preset.name = l.map Preset.name := by
  induction l with
  | nil => rfl
  | cons p t ih =>
    by_cases h : jsToLowerCase p.name = jsToLowerCase nm
    · simp [overwriteFirstPresetCI, h]
    · simp [overwriteFirstPresetCI, h, ih]

theorem ciUniqueStrings_append_singleton (s : List String) (x : String)
    (h1 : ciUniqueStrings s = true)
    (h2 : ∀ y ∈ s, jsToLowerCase y ≠ jsToLowerCase x) :
    ciUniqueStrings (s ++ [x]) = true := by
  induction s with
  | nil => simp [ciUniqueStrings]
  | cons a t ih =>
    have hx : (jsToLowerCase x == jsToLowerCase a) = false :=
      beq_eq_false_iff_ne.mpr (Ne.symm (h2 a (List.mem_cons_self _ _)))
    simp only [ciUniqueStrings, Bool.and_eq_true, Bool.not_eq_true'] at h1
    have ht := ih h1.2 (fun y hy => h2 y (List.mem_cons_of_mem _ hy))
    show ((!((t ++ [x]).any fun u => jsToLowerCase u == jsToLowerCase a)) &&
        ciUniqueStrings (t ++ [x])) = true
    rw [List.any_append, ht]
    simp [h1.1, hx]

theorem ciUniqueNames_push (l : List Preset) (p : Preset)
    (h : ciUniqueNames l = true)
    (hf : l.find? (fun q => jsToLowerCase q.name == jsToLowerCase p.name) = none) :
    ciUniqueNames (l ++ [p]) = true := by
  rw [ciUniqueNames_eq_strings, List.map_append]
  rw [ciUniqueNames_eq_strings] at h
  refine ciUniqueStrings_append_singleton _ _ h ?_
  intro y hy
  obtain ⟨q, hq, rfl⟩ := List.mem_map.mp hy
  have := List.find?_eq_none.mp hf q hq
  simpa using this

/-- C6 amended, part proved here: `importSinglePreset` preserves
case-insensitive name uniqueness — overwriting mutates an existing entry
in place (names unchanged) and a new preset is only pushed once its name
has no case-insensitive match in the registry. -/
theorem importSinglePreset_preserves_unique_names (l : List Preset)
    (dataName : String) (dataWorldList : List String) (dataWIS : Option WISnapshot)
    (renameResponses : List String) (overwriteConfirm : Bool)
    (h : ciUniqueNames l = true) :
    ciUniqueNames
      (importSinglePreset l dataName dataWorldList dataWIS renameResponses
        overwriteConfirm).1 = true := by
  induction renameResponses generalizing dataName with
  | nil =>
    by_cases hf :
        (l.find? (fun p => jsToLowerCase p.name == jsToLowerCase dataName)).isSome
    · rw [show importSinglePreset l dataName dataWorldList dataWIS [] overwriteConfirm =
          (l, ImportOutcome.outOfResponses) from by
        conv_lhs => rw [importSinglePreset]
        rw [if_pos hf]]
      exact h
    · rw [show importSinglePreset l dataName dataWorldList dataWIS [] overwriteConfirm =
          (l ++ [⟨dataName, dataWorldList, dataWIS⟩],
            ImportOutcome.pushed dataName) from by
        conv_lhs => rw [importSinglePreset.eq_def]
        rw [if_neg hf]]
      exact ciUniqueNames_push l _ h (Option.not_isSome_iff_eq_none.mp hf)
  | cons response rest ih =>
    by_cases hf :
        (l.find? (fun p => jsToLowerCase p.name == jsToLowerCase dataName)).isSome
    · by_cases hr : response = dataName
      · by_cases hc : overwriteConfirm = true
        · rw [show importSinglePreset l dataName dataWorldList dataWIS
              (response :: rest) overwriteConfirm =
              (overwriteFirstPresetCI l dataName dataWorldList dataWIS,
                ImportOutcome.overwrote dataName true) from by
            conv_lhs => rw [importSinglePreset]
            rw [if_pos hf, if_pos hr, if_pos hc]]
          rw [ciUniqueNames_eq_strings, overwriteFirstPresetCI_names,
            ← ciUniqueNames_eq_strings]
          exact h
        · rw [show importSinglePreset l dataName dataWorldList dataWIS
              (response :: rest) overwriteConfirm =
              (l, ImportOutcome.overwrote dataName false) from by
            conv_lhs => rw [importSinglePreset]
            rw [if_pos hf, if_pos hr, if_neg hc]]
          exact h
      · rw [show importSinglePreset l dataName dataWorldList dataWIS
            (response :: rest) overwriteConfirm =
            importSinglePreset l response dataWorldList dataWIS rest
              overwriteConfirm from by
          conv_lhs => rw [importSinglePreset]
          rw [if_pos hf, if_neg hr]]
        exact ih response
    · rw [show importSinglePreset l dataName dataWorldList dataWIS
          (response :: rest) overwriteConfirm =
          (l ++ [⟨dataName, dataWorldList, dataWIS⟩],
            ImportOutcome.pushed dataName) from by
        conv_lhs => rw [importSinglePreset.eq_def]
        rw [if_neg hf]]
      exact ciUniqueNames_push l _ h (Option.not_isSome_iff_eq_none.mp hf)

/-- Witness for the amended C6 theorem: importing "a" into a registry
holding "A" with one re-prompt answer "b" keeps names unique. -/
theorem importSinglePreset_preserves_unique_names_witness :
    ciUniqueNames [(⟨"A", [], none⟩ : Preset)] = true ∧
    ciUniqueNames
      (importSinglePreset [⟨"A", [], none⟩] "a" ["w"] none ["b"] true).1 = true :=
  ⟨by decide,
    importSinglePreset_preserves_unique_names [⟨"A", [], none⟩] "a" ["w"] none ["b"] true
      (by decide)⟩

/-- A registry holding one preset "A", used for the C6 counterexample. -/
def dupBaseState : HostState :=
  { settings :=
      { presetName := ""
        presetList := [⟨"A", ["b1"], none⟩]
        characterLocks := []
        groupLocks := []
        preferChatOverCharacterLocks := false
        enableCharacterLocks := true
        enableChatLocks := true
        enableGroupLocks := true
        showLockNotifications := true
        globalDefaultPreset := "" }
    chatLock := none
    globalSelect := []
    ctx :=
      { characterName := some "X"
        chatId := some "c1"
        isGroupChat := false
        groupId := none } }

/-- C6 counterexample: `createPreset` performs no collision check, so
creating "a" while "A" exists yields two presets whose names are equal
up to case — the claimed registry invariant is not preserved by create. -/
theorem createPreset_breaks_unique_names :
    ciUniqueNames dupBaseState.settings.presetList = true ∧
    (createPreset dupBaseState (some "a") (some (false, [])) []).settings.presetList.map
      Preset.name = ["A", "a"] ∧
    jsToLowerCase "A" = jsToLowerCase "a" ∧
    ciUniqueNames
      (createPreset dupBaseState (some "a") (some (false, [])) []).settings.presetList =
      false := by
  refine ⟨by decide, by decide, by decide, by decide⟩

/-! ### Claim C7 -/

/-- A state with one preset "Combat" whose book "b1" is loaded, and no
locks, used to evaluate the `wipreset` command. -/
def wipresetState : HostState :=
  { settings :=
      { presetName := "Combat"
        presetList := [⟨"Combat", ["b1"], none⟩]
        characterLocks := []
        groupLocks := []
        preferChatOverCharacterLocks := false
        enableCharacterLocks := true
        enableChatLocks := true
        enableGroupLocks := true
        showLockNotifications := true
        globalDefaultPreset := "" }
    chatLock := none
    globalSelect := ["b1"]
    ctx :=
      { characterName := some "X"
        chatId := some "c1"
        isGroupChat := false
        groupId := none } }

/-- Claim C7, evaluated at the failing input: `wipreset` with an empty
name does NOT deactivate — `activatePresetByName('')` finds no preset
whose name lowercases to the empty string, warns "not found" and returns
with no book operation and no state change, while deactivation
(`activatePreset(null)`, which the command's own registered help text
promises for a blank name) would unload the loaded book and clear the
selection.  A non-empty name works as documented: a case-insensitive
match activates, an unknown name warns. -/
theorem wipreset_blank_warns_instead_of_deactivating :
    wipresetCommand wipresetState "" false = (wipresetState, [], .warnedNotFound "") ∧
    (activatePreset wipresetState none false false).2 = [BookOp.unload "b1"] ∧
    (activatePreset wipresetState none false false).1.settings.presetName = "" ∧
    (wipresetCommand wipresetState "combat" false).2.2 = .activated "Combat" ∧
    (wipresetCommand wipresetState "Nope" false).2.2 = .warnedNotFound "Nope" := by
  refine ⟨by decide, by decide, by decide, by decide, by decide⟩

/-! ### Claim C8 -/

/-- A state whose resolved lock "Ghost" names no preset, with
notifications disabled and global default "Default" configured. -/
def danglingLockState : HostState :=
  { settings :=
      { presetName := ""
        presetList := [⟨"Default", ["d1"], none⟩]
        characterLocks := [("Alice", "Ghost")]
        groupLocks := []
        preferChatOverCharacterLocks := false
        enableCharacterLocks := true
        enableChatLocks := true
        enableGroupLocks := true
        showLockNotifications := false
        globalDefaultPreset := "Default" }
    chatLock := none
    globalSelect := []
    ctx :=
      { characterName := some "Alice"
        chatId := some "c1"
        isGroupChat := false
        groupId := none } }

/-- C8 counterexample: with `showLockNotifications = false`, a resolved
lock naming a missing preset does not make `checkAndApplyLocks` return
early — control falls through to the global-default logic, which
activates the default preset and mutates the selection, contrary to the
claim that this holds for every value of the flag. -/
theorem checkAndApplyLocks_dangling_lock_applies_default :
    getLockForContext danglingLockState = some "Ghost" ∧
    danglingLockState.settings.presetList.find? (fun p => p.name == "Ghost") = none ∧
    danglingLockState.settings.showLockNotifications = false ∧
    danglingLockState.settings.presetName = "" ∧
    (checkAndApplyLocks danglingLockState false 10).2.2 =
      LockApplyOutcome.appliedDefault "Default" ∧
    (checkAndApplyLocks danglingLockState false 10).1.settings.presetName = "Default" ∧
    (checkAndApplyLocks danglingLockState false 10).2.1 = [BookOp.load "d1"] := by
  refine ⟨by decide, by decide, by decide, by decide, by decide, by decide, by decide⟩

/-- C8 amended: when the resolved lock names a preset missing from the
registry AND `showLockNotifications` is true, `checkAndApplyLocks`
warns and returns immediately — no preset is activated, no book
operation is emitted, and the state is unchanged.  (When the flag is
false the routine instead falls through to the global-default logic, as
the counterexample shows.) -/
theorem checkAndApplyLocks_missing_lock_warns (st : HostState) (L : String)
    (fuel : Nat) (shouldUpdate : Bool)
    (hres : getLockForContext st = some L)
    (hmiss : st.settings.presetList.find? (fun p => p.name == L) = none)
    (hnotify : st.settings.showLockNotifications = true) :
    checkAndApplyLocks st shouldUpdate (fuel + 1) =
      (st, [], LockApplyOutcome.warnedMissing L) := by
  conv_lhs => rw [checkAndApplyLocks]
  rw [hres]
  simp only [hmiss, hnotify, if_true]

/-- A copy of the dangling-lock state with notifications enabled, used
to witness the amended C8 theorem. -/
def danglingLockNotifyState : HostState :=
  { danglingLockState with settings :=
      { danglingLockState.settings with showLockNotifications := true } }

/-- Witness for the amended C8 theorem at the concrete dangling-lock
state with notifications on. -/
theorem checkAndApplyLocks_missing_lock_warns_witness :
    checkAndApplyLocks danglingLockNotifyState false 10 =
      (danglingLockNotifyState, [], LockApplyOutcome.warnedMissing "Ghost") :=
  checkAndApplyLocks_missing_lock_warns danglingLockNotifyState "Ghost" 9 false
    (by decide) (by decide) (by decide)

/-! ### Claim C9 -/

theorem filter_length_pos_iff {α : Type} (q : α → Bool) (l : List α) :
    0 < (l.filter q).length ↔ ∃ a ∈ l, q a = true := by
  rw [List.length_pos, Ne, List.filter_eq_nil_iff]
  push_neg
  simp

theorem spliceReplaceFirst_spec (l : List String) (o n : String) (h : o ∈ l) :
    ∃ j : Nat, l[j]? = some o ∧
      ∀ k : Nat, (spliceReplaceFirst l o n)[k]? = (if k = j then some n else l[k]?) := by
  induction l with
  | nil => cases h
  | cons b t ih =>
    by_cases hb : b = o
    · subst hb
      refine ⟨0, by simp, fun k => ?_⟩
      rw [show spliceReplaceFirst (b :: t) b n = n :: t from by simp [spliceReplaceFirst]]
      cases k with
      | zero => simp
      | succ m => simp
    · have h2 : o ∈ t := by
        rcases List.mem_cons.mp h with h1 | h1
        · exact absurd h1.symm hb
        · exact h1
      obtain ⟨j, hj1, hj2⟩ := ih h2
      refine ⟨j + 1, by simpa using hj1, fun k => ?_⟩
      rw [show spliceReplaceFirst (b :: t) o n = b :: spliceReplaceFirst t o n from by
        simp [spliceReplaceFirst, hb]]
      cases k with
      | zero =>
        rw [if_neg (by omega)]
        simp
      | succ m =>
        simp only [List.getElem?_cons_succ]
        rw [hj2 m]
        by_cases hm : m = j
        · subst hm
          simp
        · rw [if_neg hm, if_neg (by omega)]

/-- Claim C9: the reconciler proposes a rename iff the diff is exactly
one added and one removed name and some preset's book list contains the
removed name; the proposal carries exactly the removed name, added name
and affected presets; on confirmation, each affected preset has the
first occurrence of the removed name replaced by the added name at the
same list position with every other entry unchanged, and unaffected
presets are untouched. -/
theorem bookRename_detection_and_rewrite (presetList : List Preset)
    (bookNames newNames : List String) :
    ((detectRename presetList bookNames newNames).isSome = true ↔
      ((diffAdded bookNames newNames).length = 1 ∧
       (diffRemoved bookNames newNames).length = 1 ∧
       ∃ p ∈ presetList, (diffRemoved bookNames newNames).headI ∈ p.worldList)) ∧
    (∀ o n aff, detectRename presetList bookNames newNames = some (o, n, aff) →
      o = (diffRemoved bookNames newNames).headI ∧
      n = (diffAdded bookNames newNames).headI ∧
      aff = presetList.filter (fun p => p.worldList.contains o)) ∧
    (∀ (o n : String) (i : Nat),
      (applyRenameToPresets presetList o n)[i]? = (presetList[i]?).map
        (fun p => if p.worldList.contains o then
            { p with worldList := spliceReplaceFirst p.worldList o n }
          else p)) ∧
    (∀ (l : List String) (o n : String), o ∈ l →
      ∃ j : Nat, l[j]? = some o ∧
        ∀ k : Nat, (spliceReplaceFirst l o n)[k]? = (if k = j then some n else l[k]?)) := by
  refine ⟨?_, ?_, ?_, fun l o n h => spliceReplaceFirst_spec l o n h⟩
  · unfold detectRename
    by_cases hc : (diffAdded bookNames newNames).length = 1 ∧
        (diffRemoved bookNames newNames).length = 1
    · rw [if_pos hc]
      by_cases hp : 0 <
          (presetList.filter
            (fun p => p.worldList.contains (diffRemoved bookNames newNames).headI)).length
      · rw [if_pos hp]
        simp only [Option.isSome_some, true_iff]
        refine ⟨hc.1, hc.2, ?_⟩
        have := (filter_length_pos_iff _ _).mp hp
        obtain ⟨p, hpmem, hq⟩ := this
        exact ⟨p, hpmem, by simpa [List.contains] using hq⟩
      · rw [if_neg hp]
        simp only [Option.isSome_none, Bool.false_eq_true, false_iff]
        rintro ⟨_, _, p, hpmem, hmem⟩
        exact hp ((filter_length_pos_iff _ _).mpr
          ⟨p, hpmem, by simpa [List.contains] using hmem⟩)
    · rw [if_neg hc]
      simp only [Option.isSome_none, Bool.false_eq_true, false_iff]
      rintro ⟨h1, h2, _⟩
      exact hc ⟨h1, h2⟩
  · intro o n aff hdet
    unfold detectRename at hdet
    by_cases hc : (diffAdded bookNames newNames).length = 1 ∧
        (diffRemoved bookNames newNames).length = 1
    · rw [if_pos hc] at hdet
      by_cases hp : 0 <
          (presetList.filter
            (fun p => p.worldList.contains (diffRemoved bookNames newNames).headI)).length
      · rw [if_pos hp] at hdet
        injection hdet with hdet
        have h1 : (diffRemoved bookNames newNames).headI = o := congrArg Prod.fst hdet
        have hsnd := congrArg Prod.snd hdet
        have h2 : (diffAdded bookNames newNames).headI = n := congrArg Prod.fst hsnd
        have h3 := congrArg Prod.snd hsnd
        refine ⟨h1.symm, h2.symm, ?_⟩
        rw [← h1]
        exact h3.symm
      · rw [if_neg hp] at hdet
        cases hdet
    · rw [if_neg hc] at hdet
      cases hdet
  · intro o n i
    unfold applyRenameToPresets
    rw [List.getElem?_map]

/-- Witness for C9 at the spec's example: old list [X, Y, Z], new list
[X, W, Z], a preset containing Y — the proposal is exactly (Y, W) with
that preset affected, and the confirmed rewrite replaces Y by W at its
position. -/
theorem bookRename_detection_and_rewrite_witness :
    detectRename [⟨"P", ["X", "Y"], none⟩] ["X", "Y", "Z"] ["X", "W", "Z"] =
      some ("Y", "W", [⟨"P", ["X", "Y"], none⟩]) ∧
    ("Y" = (diffRemoved ["X", "Y", "Z"] ["X", "W", "Z"]).headI ∧
     "W" = (diffAdded ["X", "Y", "Z"] ["X", "W", "Z"]).headI ∧
     [(⟨"P", ["X", "Y"], none⟩ : Preset)] =
       List.filter (fun p => p.worldList.contains "Y") [⟨"P", ["X", "Y"], none⟩]) ∧
    (∃ j : Nat, (["X", "Y"] : List String)[j]? = some "Y" ∧
      ∀ k : Nat, (spliceReplaceFirst ["X", "Y"] "Y" "W")[k]? =
        (if k = j then some "W" else (["X", "Y"] : List String)[k]?)) :=
  ⟨by decide,
   (bookRename_detection_and_rewrite [⟨"P", ["X", "Y"], none⟩] ["X", "Y", "Z"]
      ["X", "W", "Z"]).2.1 "Y" "W" [⟨"P", ["X", "Y"], none⟩] (by decide),
   (bookRename_detection_and_rewrite [⟨"P", ["X", "Y"], none⟩] ["X", "Y", "Z"]
      ["X", "W", "Z"]).2.2.2 ["X", "Y"] "Y" "W" (by decide)⟩

/-! ### Claim C10 -/

/-- Claim C10: the startup migration (run from `init`) overwrites the
`worldInfoSettings` of every preset with a falsy (null/absent) value
with the current global snapshot and leaves the others untouched; hence
after it runs, every preset in the registry carries a non-null
`worldInfoSettings`, so the "null means do not touch engine
configuration" state cannot survive a restart for pre-existing presets. -/
theorem migratePresets_settings_present (currentSettings : WISnapshot)
    (l : List Preset) :
    (∀ p ∈ migratePresetsToIncludeSettings currentSettings l,
      p.worldInfoSettings.isSome = true) ∧
    (∀ i : Nat, (migratePresetsToIncludeSettings currentSettings l)[i]? =
      (l[i]?).map (fun p =>
        if p.worldInfoSettings.isNone then
          { p with worldInfoSettings := some currentSettings }
        else p)) := by
  constructor
  · intro p hp
    obtain ⟨q, hq, rfl⟩ := List.mem_map.mp hp
    cases hqs : q.worldInfoSettings with
    | none => simp [hqs]
    | some s => simp [hqs]
  · intro i
    unfold migratePresetsToIncludeSettings
    rw [List.getElem?_map]

/-- Witness for C10: migrating a registry with one settings-less preset
yields a preset carrying the snapshot. -/
theorem migratePresets_settings_present_witness :
    (⟨"A", ["b1"], some []⟩ : Preset) ∈
      migratePresetsToIncludeSettings [] [⟨"A", ["b1"], none⟩] ∧
    Option.isSome (some ([] : WISnapshot)) = true :=
  ⟨by decide,
    (migratePresets_settings_present [] [⟨"A", ["b1"], none⟩]).1
      ⟨"A", ["b1"], some []⟩ (by decide)⟩

end STWIL
